import Mathlib

/-!
Verification of the package-loading pipeline of `interp/src.go`
(`importSrc`, `effectivePkg`, `searchUpDirPath`).

Paths are Go strings; we model the lexical path functions of Go's
`path/filepath` (with the unix separator `'/'`, the separator the source
uses) on `List Char`, and wrap them into `String` at the boundary.
Interpreter state is restricted to the three fields `importSrc` itself
reads and writes (`srcPkg`, `pkgNames`, `rdir`); all collaborators that
live outside `src/interp/src.go` (the filesystem, `parse`, `ast`, `gta`,
`gtaRetry`, `cfg`, `genRun`, `genGlobalVars`, `skipFile`,
`packages.Load`-based `getPackageDir`, and the post-GTA `scopes` table)
are supplied as pure oracles in an environment record, and every
externally visible action (filesystem access, node execution, frame
resize) is recorded in an event trace.
-/

namespace YaegiSrc

/-- Mirrors Go `strings.Split(s, "/")` on char lists: accumulator holds the
current segment reversed. `strings.Split` of the empty string is `[""]`. -/
def splitSepAux : List Char → List Char → List (List Char)
  | [], cur => [cur.reverse]
  | c :: rest, cur =>
    if c = '/' then cur.reverse :: splitSepAux rest [] else splitSepAux rest (c :: cur)

/-- Go `strings.Split(s, string(filepath.Separator))` on char lists. -/
def splitSep (l : List Char) : List (List Char) := splitSepAux l []

/-- Go `strings.Join(elems, "/")` on char lists. -/
def joinSep : List (List Char) → List Char
  | [] => []
  | [s] => s
  | s :: rest => s ++ '/' :: joinSep rest

/-- True when the path begins with the separator. -/
def isRooted : List Char → Bool
  | '/' :: _ => true
  | _ => false

/-- Segment processing of Go `path/filepath.Clean`: drop empty and `.`
segments, let `..` pop a previous real segment, keep leading `..`s of a
relative path, and drop `..` at the root of a rooted path. -/
def cleanSegsAux (rooted : Bool) : List (List Char) → List (List Char) → List (List Char)
  | [], acc => acc.reverse
  | seg :: rest, acc =>
    if seg = [] ∨ seg = ['.'] then cleanSegsAux rooted rest acc
    else if seg = ['.', '.'] then
      match acc with
      | [] => cleanSegsAux rooted rest (if rooted then [] else [['.', '.']])
      | top :: acc' =>
        if top = ['.', '.'] then cleanSegsAux rooted rest (['.', '.'] :: top :: acc')
        else cleanSegsAux rooted rest acc'
    else cleanSegsAux rooted rest (seg :: acc)

/-- Go `path/filepath.Clean` (unix separators) on char lists. -/
def goCleanChars (p : List Char) : List Char :=
  if p = [] then ['.']
  else
    let rooted := isRooted p
    let segs := cleanSegsAux rooted (splitSep p) []
    if segs = [] then (if rooted then ['/'] else ['.'])
    else (if rooted then ['/'] else []) ++ joinSep segs

/-- Go `path/filepath.Join(elem...)`: skip leading empty elements, then
`Clean` the `"/"`-join of the rest; all-empty input gives `""`. -/
def goJoinChars : List (List Char) → List Char
  | [] => []
  | e :: rest => if e = [] then goJoinChars rest else goCleanChars (joinSep (e :: rest))

/-- Go `path/filepath.Dir`: `Clean` of the prefix up to and including the
last separator (the empty prefix cleans to `"."`). -/
def goDirChars (p : List Char) : List Char :=
  goCleanChars ((p.reverse.dropWhile (fun c => c != '/')).reverse)

/-- String wrapper for `goCleanChars`. -/
def goClean (s : String) : String := ⟨goCleanChars s.data⟩

/-- String wrapper for `goJoinChars`. -/
def goJoin (elems : List String) : String := ⟨goJoinChars (elems.map String.data)⟩

/-- String wrapper for `goDirChars`. -/
def goDir (s : String) : String := ⟨goDirChars s.data⟩

/-- `isPathRelative` from src.go lines 294-298: the path starts with
`"./"` or `"../"` (`strings.HasPrefix`, computed on the char list). -/
def isPathRelative (s : String) : Bool :=
  ['.', '/'].isPrefixOf s.data || ['.', '.', '/'].isPrefixOf s.data

/-- The interpreter constant `mainID` (`"main"`), declared outside src.go. -/
def mainID : String := "main"

/-- The loop of `effectivePkg` (src.go lines 272-284), iterating `i` over
the positions of `splitPath` from the last segment backwards; `fuel`
counts the remaining iterations, so the call with `fuel = splitPath.length`
and `i = 0` runs the whole Go `for` loop. Go's `index` is an `int` that is
only ever used under an `index > 0` guard, and `rootIndex` never exceeds
`len(splitRoot)-1`, so truncated `Nat` subtraction takes the same branch. -/
def effectiveLoop (splitRoot splitPath : List (List Char)) :
    Nat → Nat → Nat → Nat → List (List Char) → List (List Char)
  | 0, _, _, _, result => result
  | fuel + 1, i, rootIndex, prevRootIndex, result =>
    let part := splitPath.getD (splitPath.length - 1 - i) []
    let index := splitRoot.length - 1 - rootIndex
    if 0 < index ∧ part = splitRoot.getD index [] ∧ i ≠ 0 then
      effectiveLoop splitRoot splitPath fuel (i + 1) (rootIndex + 1) rootIndex result
    else if prevRootIndex = rootIndex then
      effectiveLoop splitRoot splitPath fuel (i + 1) rootIndex prevRootIndex (result ++ [part])
    else
      effectiveLoop splitRoot splitPath fuel (i + 1) rootIndex prevRootIndex result

/-- `effectivePkg` from src.go lines 266-292: split `root` and `path` on the
separator, run the backward scan, rebuild `frag` by `filepath.Join`-folding
the collected segments in reverse collection order, and return
`filepath.Join(root, frag)`. -/
def effectivePkgChars (root path : List Char) : List Char :=
  let splitRoot := splitSep root
  let splitPath := splitSep path
  let result := effectiveLoop splitRoot splitPath splitPath.length 0 0 0 []
  goJoinChars [root, result.reverse.foldl (fun frag part => goJoinChars [frag, part]) []]

/-- String wrapper for `effectivePkgChars`. -/
def effectivePkg (root path : String) : String := ⟨effectivePkgChars root.data path.data⟩

/-- Largest `k ≤ bound` such that the last `k` segments of `sr` are the
first `k` segments of `sp`. -/
def overlapLen (sr sp : List (List Char)) : Nat → Nat
  | 0 => 0
  | k + 1 =>
    if k + 1 ≤ sr.length ∧ k + 1 ≤ sp.length ∧ sr.drop (sr.length - (k + 1)) = sp.take (k + 1)
    then k + 1 else overlapLen sr sp k

/-- Modelled from the spec: the claim's reading of the effective sub-path,
"root joined with the sub-path of the import path after collapsing shared
trailing segments with root, i.e. the import path expressed relative to the
caller's root" — drop from the import path its longest segment prefix that
is a trailing run of root's segments, and join the remainder onto root. -/
def relImportChars (root path : List Char) : List Char :=
  let sr := splitSep root
  let sp := splitSep path
  let k := overlapLen sr sp (min sr.length sp.length)
  goJoinChars [root, joinSep (sp.drop k)]

/-- String wrapper for `relImportChars`. -/
def specEffectivePkg (root path : String) : String := ⟨relImportChars root.data path.data⟩

/-- Segments kept by the backward scan after the unconditionally kept last
segment: everything up to (excluding) the first occurrence of root's last
segment. -/
def keptFromEnd (srLast : List Char) : List (List Char) → List (List Char)
  | [] => []
  | s :: rest => if s = srLast then [] else s :: keptFromEnd srLast rest

/-- What the scan of `effectivePkg` actually keeps, in scan order (from the
path's last segment leftwards): the last segment always, then — only when
the root has at least two segments — the segments up to the first
occurrence of the root's last segment (collapsing consumes it and drops
everything to its left); a root with fewer than two segments collapses
nothing. -/
def keptScan (sr sp : List (List Char)) : List (List Char) :=
  match sp.reverse with
  | [] => []
  | s0 :: rest =>
    s0 :: (if 2 ≤ sr.length then keptFromEnd (sr.getD (sr.length - 1) []) rest else rest)

/-- The error of src.go line 226: the target directory is not within the
initial path. -/
inductive SearchErr where
  | notWithin (target initial : String)
deriving DecidableEq

/-- `searchUpDirPath` from src.go lines 221-237, with explicit recursion
fuel (the Go function recurses on `filepath.Dir(initial)` with no other
decreasing measure; `none` means the recursion has not finished within
`fuel` steps). -/
def searchUpDirPathFuel : Nat → String → String → Bool → Option (Except SearchErr String)
  | 0, _, _, _ => none
  | fuel + 1, initial, target, isCaseSensitive =>
    let splitdir := splitSep (goJoinChars [initial.data])
    if splitdir.length = 1 then some (Except.error (SearchErr.notWithin target initial))
    else
      let updir := splitdir.getD (splitdir.length - 1) []
      let updir2 := if isCaseSensitive then updir else updir.map Char.toLower
      if updir2 = target.data then some (Except.ok initial)
      else searchUpDirPathFuel fuel (goDir initial) target isCaseSensitive

/-- Abstract AST/CFG node: nodes are only compared and scheduled by
`importSrc`, never inspected, so an id suffices. -/
abbrev Node := Nat

/-- Abstract parser output (`interp.parse` result), only handed to `ast`. -/
abbrev Syntree := Nat

/-- The fragment of a symbol record that `importSrc` reads: its defining
node (`m.node`, src.go line 154). -/
structure Sym where
  node : Node
deriving DecidableEq

/-- A package scope's symbol table (`gs.sym`): identifier to symbol. -/
abbrev SymTab := List (String × Sym)

/-- Externally visible actions of one `importSrc` call, in order: a
`packages.Load` directory lookup, a directory listing, a file read, the
frame resize done under the registration lock, and a node execution
(`interp.run(n, frame)`; `withFrame` distinguishes `interp.frame` from
`nil`). -/
inductive Ev where
  | pkgDir (importPath : String)
  | readDir (dir : String)
  | readFile (name : String)
  | resize
  | run (n : Node) (withFrame : Bool)
deriving DecidableEq

/-- Errors `importSrc` can return. The three structured constructors are
the errors built inside src.go itself (lines 23, 41, 96); `external` wraps
any error propagated from a collaborator (filesystem, parse, ast, gta,
gtaRetry, cfg, genRun, genGlobalVars, packages.Load). -/
inductive Err where
  | inconsistent (importPath : String)
  | cycle (importPath : String)
  | pkgConflict (name1 name2 dir : String)
  | external (msg : String)
deriving DecidableEq

/-- The interpreter fields `importSrc` reads and writes: the registry of
loaded source packages (`interp.srcPkg`), the display names
(`interp.pkgNames`) and the in-progress markers (`interp.rdir`), all keyed
by import path. Association lists stand in for Go maps. -/
structure St where
  srcPkg : List (String × SymTab)
  pkgNames : List (String × String)
  rdir : List String
deriving DecidableEq

/-- The collaborators of `importSrc`, everything it calls that is defined
outside src.go, as deterministic oracles: `name` is `interp.name`;
`getPackageDir` covers src.go lines 184-219 (driven by `packages.Load`
and the GOTOOLDIR search, all outside the modelled state); `readDirOracle`
and `readFileOracle` are the injected filesystem; `skipFileFn` is
`skipFile` with the build context fixed; `parseFn`, `astFn`, `gtaFn`,
`gtaRetryFn`, `cfgFn`, `genRunFn`, `genGlobalVarsFn` are the pipeline
collaborators with their non-state arguments; `scopes` is the post-GTA
`interp.scopes` table read at registration (line 128). Oracle errors are
plain strings, so the structured errors of `Err` can only be built by
`importSrc` itself. -/
structure Env where
  name : String
  getPackageDir : String → Except String String
  readDirOracle : String → Except String (List String)
  readFileOracle : String → Except String String
  skipFileFn : String → Bool → Bool
  parseFn : String → String → Except String (Option Syntree)
  astFn : Syntree → Except String (String × Option Node)
  gtaFn : Node → String → String → String → Except String (List Node)
  gtaRetryFn : List Node → String → String → Except String Unit
  cfgFn : Node → String → String → Except String (List Node)
  genRunFn : Node → Except String Unit
  genGlobalVarsFn : List Node → SymTab → Except String Node
  scopes : String → SymTab

/-- Directory resolution, src.go lines 29-38: a relative import path joins
against the directory of `interp.name` and `rPath` (with `rPath` rewritten
from `"main"` to `"."`), an absolute one delegates to `getPackageDir`.
Returns the (possibly rewritten) `rPath` together with the directory. -/
def resolveDir (env : Env) (rPath importPath : String) :
    List Ev × Except Err (String × String) :=
  if isPathRelative importPath then
    if rPath = mainID then
      ([], Except.ok (".", goJoin [goDir env.name, ".", importPath]))
    else
      ([], Except.ok (rPath, goJoin [goDir env.name, rPath, importPath]))
  else
    match env.getPackageDir importPath with
    | Except.error e => ([Ev.pkgDir importPath], Except.error (Err.external e))
    | Except.ok dir => ([Ev.pkgDir importPath], Except.ok (rPath, dir))

/-- `revisit[subRPath] = append(revisit[subRPath], list...)` (src.go line
106) on an association list kept in first-insertion order. -/
def addRevisit : List (String × List Node) → String → List Node → List (String × List Node)
  | [], key, list => [(key, list)]
  | (k, l) :: rest, key, list =>
    if k = key then (k, l ++ list) :: rest else (k, l) :: addRevisit rest key list

/-- Prefix one event onto a traced result. -/
def withEv (e : Ev) : List Ev × Except Err α → List Ev × Except Err α
  | (evs, r) => (e :: evs, r)

/-- The source-file loop of src.go lines 57-107, over the listed file
names: skip ineligible files, read and parse each one, track the declared
package name (first file authoritative; a later different name is an error
only when `skipTest` is set), collect AST roots, run GTA phase one and
accumulate its unresolved nodes in the revisit table keyed by
`effectivePkg rPath importPath`. -/
def parseLoop (env : Env) (dir rPath importPath : String) (skipTest : Bool) :
    List String → String → List Node → List (String × List Node) →
    List Ev × Except Err (String × List Node × List (String × List Node))
  | [], pkgName, rootNodes, revisit => ([], Except.ok (pkgName, rootNodes, revisit))
  | file :: rest, pkgName, rootNodes, revisit =>
    if env.skipFileFn file skipTest then
      parseLoop env dir rPath importPath skipTest rest pkgName rootNodes revisit
    else
      match env.readFileOracle (goJoin [dir, file]) with
      | Except.error e => ([Ev.readFile (goJoin [dir, file])], Except.error (Err.external e))
      | Except.ok buf =>
        match env.parseFn buf (goJoin [dir, file]) with
        | Except.error e => ([Ev.readFile (goJoin [dir, file])], Except.error (Err.external e))
        | Except.ok none =>
          withEv (Ev.readFile (goJoin [dir, file]))
            (parseLoop env dir rPath importPath skipTest rest pkgName rootNodes revisit)
        | Except.ok (some stx) =>
          match env.astFn stx with
          | Except.error e => ([Ev.readFile (goJoin [dir, file])], Except.error (Err.external e))
          | Except.ok (_, none) =>
            withEv (Ev.readFile (goJoin [dir, file]))
              (parseLoop env dir rPath importPath skipTest rest pkgName rootNodes revisit)
          | Except.ok (pname, some root) =>
            if pkgName ≠ "" ∧ pkgName ≠ pname ∧ skipTest then
              ([Ev.readFile (goJoin [dir, file])],
               Except.error (Err.pkgConflict pkgName pname dir))
            else
              match env.gtaFn root (effectivePkg rPath importPath) importPath
                  (if pkgName = "" then pname else pkgName) with
              | Except.error e =>
                ([Ev.readFile (goJoin [dir, file])], Except.error (Err.external e))
              | Except.ok list =>
                withEv (Ev.readFile (goJoin [dir, file]))
                  (parseLoop env dir rPath importPath skipTest rest
                    (if pkgName = "" then pname else pkgName)
                    (rootNodes ++ [root])
                    (addRevisit revisit (effectivePkg rPath importPath) list))

/-- GTA phase two, src.go lines 110-114: retry every revisit entry. -/
def gtaRetryAll (env : Env) (importPath pkgName : String) :
    List (String × List Node) → Except Err Unit
  | [] => Except.ok ()
  | (_, nodes) :: rest =>
    match env.gtaRetryFn nodes importPath pkgName with
    | Except.error e => Except.error (Err.external e)
    | Except.ok _ => gtaRetryAll env importPath pkgName rest

/-- CFG building, src.go lines 117-123: per AST root in file order,
accumulating each file's init nodes by appending. -/
def cfgAll (env : Env) (importPath pkgName : String) : List Node → Except Err (List Node)
  | [] => Except.ok []
  | root :: rest =>
    match env.cfgFn root importPath pkgName with
    | Except.error e => Except.error (Err.external e)
    | Except.ok nodes =>
      match cfgAll env importPath pkgName rest with
      | Except.error e => Except.error e
      | Except.ok more => Except.ok (nodes ++ more)

/-- The whole load pipeline between the in-progress marker and
registration, src.go lines 45-123: list the directory, run the file loop,
GTA retry, and CFG building; yields the package name, the AST roots and
the accumulated init nodes. -/
def loadPkg (env : Env) (dir rPath importPath : String) (skipTest : Bool) :
    List Ev × Except Err (String × List Node × List Node) :=
  match env.readDirOracle dir with
  | Except.error e => ([Ev.readDir dir], Except.error (Err.external e))
  | Except.ok files =>
    match parseLoop env dir rPath importPath skipTest files "" [] [] with
    | (evs, Except.error e) => (Ev.readDir dir :: evs, Except.error e)
    | (evs, Except.ok (pkgName, rootNodes, revisit)) =>
      match gtaRetryAll env importPath pkgName revisit with
      | Except.error e => (Ev.readDir dir :: evs, Except.error e)
      | Except.ok _ =>
        match cfgAll env importPath pkgName rootNodes with
        | Except.error e => (Ev.readDir dir :: evs, Except.error e)
        | Except.ok initNodes =>
          (Ev.readDir dir :: evs, Except.ok (pkgName, rootNodes, initNodes))

/-- Per-file wrapper execution, src.go lines 138-143: for each AST root in
parse order, `genRun` it (which can fail) and run it against a nil frame. -/
def runRootNodes (env : Env) : List Node → List Ev × Except Err Unit
  | [] => ([], Except.ok ())
  | n :: rest =>
    match env.genRunFn n with
    | Except.error e => ([], Except.error (Err.external e))
    | Except.ok _ =>
      match runRootNodes env rest with
      | (evs, r) => (Ev.run n false :: evs, r)

/-- The main-equivalent nodes appended to the init list, src.go lines
152-155: the node of `gs.sym[mainID]`, exactly when that symbol exists,
the package name is `mainID` and `skipTest` is set. -/
def mainNodes (gs : SymTab) (pkgName : String) (skipTest : Bool) : List Node :=
  match gs.lookup mainID with
  | some m => if pkgName = mainID ∧ skipTest then [m.node] else []
  | none => []

/-- The execution phase, src.go lines 138-159: per-file wrappers, then the
synthesized global-variable node (run against a nil frame), then the init
nodes — with the main-equivalent node appended — against the shared
frame. -/
def execPhase (env : Env) (gs : SymTab) (pkgName : String) (skipTest : Bool)
    (rootNodes initNodes : List Node) : List Ev × Except Err Unit :=
  match runRootNodes env rootNodes with
  | (evs, Except.error e) => (evs, Except.error e)
  | (evs, Except.ok _) =>
    match env.genGlobalVarsFn rootNodes gs with
    | Except.error e => (evs, Except.error (Err.external e))
    | Except.ok gv =>
      (evs ++ Ev.run gv false ::
        (initNodes ++ mainNodes gs pkgName skipTest).map (fun n => Ev.run n true),
       Except.ok ())

/-- `importSrc`, src.go lines 16-162: cached-registration fast path (with
the inconsistency error when the display name is missing), directory
resolution, cycle check against `rdir` and permanent marking, the load
pipeline, registration of `scopes[importPath]` and of the display name
together with the frame resize, and the execution phase. Returns the new
interpreter state, the event trace, and the display name or error. -/
def importSrc (env : Env) (s : St) (rPath importPath : String) (skipTest : Bool) :
    St × List Ev × Except Err String :=
  match s.srcPkg.lookup importPath with
  | some _ =>
    match s.pkgNames.lookup importPath with
    | none => (s, [], Except.error (Err.inconsistent importPath))
    | some name => (s, [], Except.ok name)
  | none =>
    match resolveDir env rPath importPath with
    | (ev0, Except.error e) => (s, ev0, Except.error e)
    | (ev0, Except.ok (rP, dir)) =>
      if s.rdir.contains importPath then (s, ev0, Except.error (Err.cycle importPath))
      else
        match loadPkg env dir rP importPath skipTest with
        | (evs, Except.error e) =>
          (⟨s.srcPkg, s.pkgNames, importPath :: s.rdir⟩, ev0 ++ evs, Except.error e)
        | (evs, Except.ok (pkgName, rootNodes, initNodes)) =>
          match execPhase env (env.scopes importPath) pkgName skipTest rootNodes initNodes with
          | (evs2, Except.error e) =>
            (⟨(importPath, env.scopes importPath) :: s.srcPkg,
              (importPath, pkgName) :: s.pkgNames, importPath :: s.rdir⟩,
             ev0 ++ evs ++ Ev.resize :: evs2, Except.error e)
          | (evs2, Except.ok _) =>
            (⟨(importPath, env.scopes importPath) :: s.srcPkg,
              (importPath, pkgName) :: s.pkgNames, importPath :: s.rdir⟩,
             ev0 ++ evs ++ Ev.resize :: evs2, Except.ok pkgName)

/-- The empty interpreter state: nothing registered, nothing in progress. -/
def st0 : St := ⟨[], [], []⟩

/-- A collaborator environment where every oracle fails; enough for runs
that stop before or at the failing collaborator. -/
def env0 : Env where
  name := "m.go"
  getPackageDir := fun _ => Except.error "no package dir"
  readDirOracle := fun _ => Except.error "no dir listing"
  readFileOracle := fun _ => Except.error "no file"
  skipFileFn := fun _ _ => false
  parseFn := fun _ _ => Except.error "no parse"
  astFn := fun _ => Except.error "no ast"
  gtaFn := fun _ _ _ _ => Except.error "no gta"
  gtaRetryFn := fun _ _ _ => Except.error "no gta retry"
  cfgFn := fun _ _ _ => Except.error "no cfg"
  genRunFn := fun _ => Except.error "no gen run"
  genGlobalVarsFn := fun _ _ => Except.error "no global vars"
  scopes := fun _ => []

/-- A collaborator environment under which importing `"./x"` from `"main"`
succeeds: one source file `a.go` declaring package `main` with AST root 1,
one per-file init node 10, a synthesized global-variable node 99, and a
`main` symbol with node 5 in the package scope. -/
def envOK : Env where
  name := "main.go"
  getPackageDir := fun _ => Except.error "no package dir"
  readDirOracle := fun _ => Except.ok ["a.go"]
  readFileOracle := fun f => Except.ok f
  skipFileFn := fun _ _ => false
  parseFn := fun _ _ => Except.ok (some 0)
  astFn := fun _ => Except.ok ("main", some 1)
  gtaFn := fun _ _ _ _ => Except.ok []
  gtaRetryFn := fun _ _ _ => Except.ok ()
  cfgFn := fun _ _ _ => Except.ok [10]
  genRunFn := fun _ => Except.ok ()
  genGlobalVarsFn := fun _ _ => Except.ok 99
  scopes := fun _ => [("main", ⟨5⟩)]

/-- A collaborator environment whose package directory is empty and whose
`genGlobalVars` fails: the load pipeline succeeds trivially, registration
happens, and the execution phase then errors. -/
def envGV : Env where
  name := "main.go"
  getPackageDir := fun _ => Except.error "no package dir"
  readDirOracle := fun _ => Except.ok []
  readFileOracle := fun _ => Except.error "no file"
  skipFileFn := fun _ _ => false
  parseFn := fun _ _ => Except.error "no parse"
  astFn := fun _ => Except.error "no ast"
  gtaFn := fun _ _ _ _ => Except.error "no gta"
  gtaRetryFn := fun _ _ _ => Except.error "no gta retry"
  cfgFn := fun _ _ _ => Except.error "no cfg"
  genRunFn := fun _ => Except.error "no gen run"
  genGlobalVarsFn := fun _ _ => Except.error "global vars failed"
  scopes := fun _ => []

/-- The state produced by a successful import of `"./x"` under `envOK`
from the empty state. -/
def stOK : St := ⟨[("./x", [("main", ⟨5⟩)])], [("./x", "main")], ["./x"]⟩

/-- The event trace of a successful import of `"./x"` under `envOK` from
the empty state. -/
def evsOK : List Ev :=
  [Ev.readDir "x", Ev.readFile "x/a.go", Ev.resize, Ev.run 1 false, Ev.run 99 false,
   Ev.run 10 true, Ev.run 5 true]

/-- A state with an inconsistent registry entry for `"q"`: a symbol table
but no display name. -/
def stInc : St := ⟨[("q", [])], [], []⟩

/-- A state in which `"p"` is fully registered with display name `"foo"`. -/
def stReg : St := ⟨[("p", [])], [("p", "foo")], []⟩

/-- A state in which `"./x"` is marked in-progress but not registered. -/
def stFlag : St := ⟨[], [], ["./x"]⟩

/-- A collaborator environment whose next file parses to package name
`"other"`; used to exercise the package-name-conflict branch. -/
def envConflict : Env where
  name := "main.go"
  getPackageDir := fun _ => Except.error "no package dir"
  readDirOracle := fun _ => Except.error "no dir listing"
  readFileOracle := fun _ => Except.ok "source text"
  skipFileFn := fun _ _ => false
  parseFn := fun _ _ => Except.ok (some 3)
  astFn := fun _ => Except.ok ("other", some 4)
  gtaFn := fun _ _ _ _ => Except.error "no gta"
  gtaRetryFn := fun _ _ _ => Except.error "no gta retry"
  cfgFn := fun _ _ _ => Except.error "no cfg"
  genRunFn := fun _ => Except.error "no gen run"
  genGlobalVarsFn := fun _ _ => Except.error "no global vars"
  scopes := fun _ => []

/-! Theorems. -/

/-- No call of `importSrc` ever clears an in-progress marker: `rdir` only
grows (the flag set at src.go line 43 is never deleted anywhere). -/
theorem importSrc_rdir_mono (env : Env) (s : St) (r p : String) (t : Bool) (q : String)
    (h : s.rdir.contains q = true) : ((importSrc env s r p t).1).rdir.contains q = true := by
  have hm : q ∈ s.rdir := by simpa using h
  unfold importSrc
  cases h1 : s.srcPkg.lookup p with
  | some tab =>
    cases h2 : s.pkgNames.lookup p <;> simp [h1, h2, hm]
  | none =>
    cases h2 : resolveDir env r p with
    | mk ev0 res =>
      cases res with
      | error e => simp [h1, h2, hm]
      | ok pr =>
        cases pr with
        | mk rP dir =>
          cases h3 : s.rdir.contains p with
          | true => simp [h1, h2, h3, hm]
          | false =>
            cases h4 : loadPkg env dir rP p t with
            | mk evs res1 =>
              cases res1 with
              | error e => simp [h1, h2, h3, h4, List.contains_cons, hm]
              | ok tri =>
                obtain ⟨pk, rn, ins⟩ := tri
                cases h5 : execPhase env (env.scopes p) pk t rn ins with
                | mk evs2 res2 =>
                  cases res2 <;>
                    simp [h1, h2, h3, h4, h5, List.contains_cons, hm]

/-- C10: for the failing input `initial = "/"`, `target = "go"`,
case-insensitive, `searchUpDirPath` never terminates: `filepath.Dir("/")`
is `"/"` again and `strings.Split("/", "/")` has two fields, so the
one-field stop of src.go line 225 never fires — for every recursion budget
the fuel-indexed model runs out of fuel, contradicting the claimed
termination with a not-within-path error (and the code's own comment at
line 223 that `filepath.Dir` bottoms out). -/
theorem searchUpDirPath_diverges_at_root :
    ∀ fuel, searchUpDirPathFuel fuel "/" "go" false = none := by
  intro fuel
  induction fuel with
  | zero => rfl
  | succ n ih =>
    rw [show searchUpDirPathFuel (n + 1) "/" "go" false
        = searchUpDirPathFuel n (goDir "/") "go" false from rfl]
    rw [show (goDir "/") = "/" from rfl]
    exact ih

/-- C5: when a symbol table is registered for an import path but no
display name is recorded, `importSrc` stops at once with the
`inconsistent knowledge` error (src.go lines 20-26): no recovery, no
reload, no state change, no filesystem access. -/
theorem importSrc_inconsistent_fatal (env : Env) (s : St) (r p : String) (t : Bool)
    (tab : SymTab) (htab : s.srcPkg.lookup p = some tab)
    (hname : s.pkgNames.lookup p = none) :
    importSrc env s r p t = (s, [], Except.error (Err.inconsistent p)) := by
  unfold importSrc
  rw [htab, hname]

/-- Witness for C5 at the concrete inconsistent state `stInc`. -/
theorem importSrc_inconsistent_fatal_witness :
    stInc.srcPkg.lookup "q" = some [] ∧ stInc.pkgNames.lookup "q" = none ∧
    importSrc env0 stInc "main" "q" true = (stInc, [], Except.error (Err.inconsistent "q")) :=
  ⟨rfl, rfl, importSrc_inconsistent_fatal env0 stInc "main" "q" true [] rfl rfl⟩

/-- Counterexample to C2 as stated: with `envGV` the whole load pipeline
(parsing, GTA, CFG) succeeds for the (empty) package, registration is
finalized, and only then does the execution phase fail in
`genGlobalVars` — `importSrc` returns an error, yet the import path
remains registered, because registration (src.go lines 127-135) precedes
the fallible execution steps (lines 138-150). -/
theorem importSrc_exec_failure_registered :
    importSrc envGV st0 "main" "./x" true
      = (⟨[("./x", [])], [("./x", "")], ["./x"]⟩, [Ev.readDir "x", Ev.resize],
         Except.error (Err.external "global vars failed")) ∧
    (((importSrc envGV st0 "main" "./x" true).1).srcPkg.lookup "./x").isSome = true :=
  ⟨rfl, rfl⟩

/-- Counterexample to C3 as stated: after a successful import of `"./x"`
its in-progress flag is set (and never cleared), yet a second request does
not fail with the import-cycle error — it returns the cached display name,
because the registration fast path (src.go lines 20-26) runs before the
cycle check (lines 40-42). -/
theorem importSrc_flagged_registered_returns_name :
    (((importSrc envOK st0 "main" "./x" true).1).rdir.contains "./x" = true) ∧
    importSrc envOK ((importSrc envOK st0 "main" "./x" true).1) "main" "./x" true
      = ((importSrc envOK st0 "main" "./x" true).1, [], Except.ok "main") :=
  ⟨rfl, rfl⟩

/-- Counterexample to C4 as stated: for an absolute import path whose
directory discovery fails, `importSrc` returns the discovery error and the
path is NOT marked in-progress — the flag of src.go line 43 is set after
directory resolution (lines 29-38), not before it. -/
theorem importSrc_dir_failure_leaves_unmarked :
    importSrc env0 st0 "main" "p" true
      = (st0, [Ev.pkgDir "p"], Except.error (Err.external "no package dir")) ∧
    ((importSrc env0 st0 "main" "p" true).1).rdir.contains "p" = false :=
  ⟨rfl, rfl⟩

/-- Counterexample to C9 as stated: for root `"a"` and import path
`"a/x"`, the import path expressed relative to the root is `"x"`, so the
claimed key would be `"a/x"`; `effectivePkg` never collapses against a
single-segment root (the `index > 0` guard of src.go line 278 excludes
the root's first segment) and returns `"a/a/x"` instead. -/
theorem effectivePkg_not_relative_subpath :
    effectivePkg "a" "a/x" = "a/a/x" ∧ specEffectivePkg "a" "a/x" = "a/x" ∧
    effectivePkg "a" "a/x" ≠ specEffectivePkg "a" "a/x" :=
  ⟨rfl, rfl, by decide⟩

/-- C3 (amended): a request for a path whose in-progress flag is set, that
is not registered, and whose directory resolution succeeds, fails with the
import-cycle error naming the path, and returns the state unchanged — so
the flag stays set and every subsequent identical request fails the same
way. (A path that got registered despite the flag instead returns its
cached display name, and a failing directory resolution reports its own
error first: the cycle check of src.go lines 40-42 runs after the cache
fast path and after directory resolution.) -/
theorem importSrc_cycle_error_permanent (env : Env) (s : St) (r p : String) (t : Bool)
    (rP dir : String) (ev0 : List Ev)
    (h0 : s.srcPkg.lookup p = none)
    (hdir : resolveDir env r p = (ev0, Except.ok (rP, dir)))
    (hflag : s.rdir.contains p = true) :
    importSrc env s r p t = (s, ev0, Except.error (Err.cycle p)) := by
  unfold importSrc
  simp only [h0, hdir, hflag]
  simp

/-- Witness for C3 at the flagged, unregistered state `stFlag`. -/
theorem importSrc_cycle_error_permanent_witness :
    stFlag.srcPkg.lookup "./x" = none ∧ stFlag.rdir.contains "./x" = true ∧
    importSrc env0 stFlag "main" "./x" true = (stFlag, [], Except.error (Err.cycle "./x")) :=
  ⟨rfl, rfl,
    importSrc_cycle_error_permanent env0 stFlag "main" "./x" true "." "x" [] rfl rfl rfl⟩

/-- C4 (amended): for an unregistered path whose directory resolution
succeeds, the in-progress flag is set before the directory listing is read
— whatever happens afterwards, the final state carries the flag — and no
call of `importSrc` ever clears any flag. (The flag is set at src.go line
43, after directory resolution at lines 29-38 but before the `fs.ReadDir`
of line 45; a failure during directory discovery itself leaves the path
unmarked.) -/
theorem importSrc_flag_after_dir_resolution (env : Env) (s : St) (r p : String) (t : Bool)
    (rP dir : String) (ev0 : List Ev)
    (h0 : s.srcPkg.lookup p = none)
    (hdir : resolveDir env r p = (ev0, Except.ok (rP, dir))) :
    (((importSrc env s r p t).1).rdir.contains p = true) ∧
    ∀ env' s' r' p' t' q, s'.rdir.contains q = true →
      ((importSrc env' s' r' p' t').1).rdir.contains q = true := by
  refine ⟨?_, fun env' s' r' p' t' q h => importSrc_rdir_mono env' s' r' p' t' q h⟩
  unfold importSrc
  simp only [h0, hdir]
  cases h3 : s.rdir.contains p with
  | true =>
    simp [h3]
    simpa using h3
  | false =>
    cases h4 : loadPkg env dir rP p t with
    | mk evs res1 =>
      cases res1 with
      | error e => simp [List.contains_cons]
      | ok tri =>
        obtain ⟨pk, rn, ins⟩ := tri
        cases h5 : execPhase env (env.scopes p) pk t rn ins with
        | mk evs2 res2 =>
          cases res2 <;> simp [h5, List.contains_cons]

/-- Witness for C4: a relative import whose directory listing then fails
still leaves the path marked in-progress. -/
theorem importSrc_flag_after_dir_resolution_witness :
    st0.srcPkg.lookup "./x" = none ∧
    ((importSrc env0 st0 "main" "./x" true).1).rdir.contains "./x" = true :=
  ⟨rfl, (importSrc_flag_after_dir_resolution env0 st0 "main" "./x" true "." "x" [] rfl rfl).1⟩

/-- C2 (amended): the symbol table is installed in the registry only after
parsing, GTA and CFG building (the load pipeline, src.go lines 45-123)
have succeeded for every file of the package, and a failure inside that
pipeline leaves the import path unregistered; but once the pipeline has
succeeded, registration is finalized (src.go lines 127-135) before the
execution phase runs, so a failure there leaves the path registered even
though the import returns an error. -/
theorem importSrc_registration_boundary (env : Env) (s : St) (r p : String) (t : Bool)
    (rP dir : String) (ev0 : List Ev)
    (h0 : s.srcPkg.lookup p = none)
    (hdir : resolveDir env r p = (ev0, Except.ok (rP, dir)))
    (hflag : s.rdir.contains p = false) :
    (∀ evs e, loadPkg env dir rP p t = (evs, Except.error e) →
        importSrc env s r p t
          = (⟨s.srcPkg, s.pkgNames, p :: s.rdir⟩, ev0 ++ evs, Except.error e) ∧
        ((importSrc env s r p t).1).srcPkg.lookup p = none) ∧
    (∀ evs pk rn ins, loadPkg env dir rP p t = (evs, Except.ok (pk, rn, ins)) →
        ((importSrc env s r p t).1).srcPkg.lookup p = some (env.scopes p)) := by
  constructor
  · intro evs e h4
    have heq : importSrc env s r p t
        = (⟨s.srcPkg, s.pkgNames, p :: s.rdir⟩, ev0 ++ evs, Except.error e) := by
      unfold importSrc
      simp only [h0, hdir, hflag, h4]
      simp
    exact ⟨heq, by rw [heq]; exact h0⟩
  · intro evs pk rn ins h4
    unfold importSrc
    simp only [h0, hdir, hflag, h4]
    cases h5 : execPhase env (env.scopes p) pk t rn ins with
    | mk evs2 res2 =>
      cases res2 <;> simp

/-- Witness for C2: on `env0` the directory listing fails, so the load
pipeline fails and `"./x"` stays unregistered. -/
theorem importSrc_registration_boundary_witness :
    st0.srcPkg.lookup "./x" = none ∧ st0.rdir.contains "./x" = false ∧
    ((importSrc env0 st0 "main" "./x" true).1).srcPkg.lookup "./x" = none :=
  ⟨rfl, rfl,
    ((importSrc_registration_boundary env0 st0 "main" "./x" true "." "x" [] rfl rfl rfl).1
      [Ev.readDir "x"] (Err.external "no dir listing") rfl).2⟩

/-- A successful `importSrc` leaves the import path registered under both
tables, with the returned display name recorded: the ingredients of the
memoization fast path. -/
theorem importSrc_ok_lookup {env : Env} {s : St} {r p : String} {t : Bool}
    {s' : St} {evs : List Ev} {nm : String}
    (h : importSrc env s r p t = (s', evs, Except.ok nm)) :
    ∃ tab, s'.srcPkg.lookup p = some tab ∧ s'.pkgNames.lookup p = some nm := by
  unfold importSrc at h
  cases h1 : s.srcPkg.lookup p with
  | some tab =>
    cases h2 : s.pkgNames.lookup p with
    | none => simp only [h1, h2] at h; simp at h
    | some name =>
      simp only [h1, h2] at h
      simp only [Prod.mk.injEq, Except.ok.injEq] at h
      obtain ⟨hs, _, hn⟩ := h
      exact ⟨tab, by rw [← hs]; exact h1, by rw [← hs, ← hn]; exact h2⟩
  | none =>
    cases h2 : resolveDir env r p with
    | mk ev0 res =>
      cases res with
      | error e => simp only [h1, h2] at h; simp at h
      | ok pr =>
        obtain ⟨rP, dir⟩ := pr
        cases h3 : s.rdir.contains p with
        | true => simp only [h1, h2, h3] at h; simp at h
        | false =>
          cases h4 : loadPkg env dir rP p t with
          | mk evs1 res1 =>
            cases res1 with
            | error e => simp only [h1, h2, h3, h4] at h; simp at h
            | ok tri =>
              obtain ⟨pk, rn, ins⟩ := tri
              cases h5 : execPhase env (env.scopes p) pk t rn ins with
              | mk evs2 res2 =>
                cases res2 with
                | error e => simp only [h1, h2, h3, h4, h5] at h; simp at h
                | ok u =>
                  simp only [h1, h2, h3, h4, h5] at h
                  simp at h
                  obtain ⟨hs, -, hn⟩ := h
                  exact ⟨env.scopes p, by rw [← hs]; simp, by rw [← hs, ← hn]; simp⟩

/-- C1: when an import path is already registered with a display name,
`importSrc` returns the cached name at once — state unchanged, no events,
in particular no filesystem access (src.go lines 20-26) — and after any
successful import (which registers path and name) a second identical call
returns the same display name with an empty event trace, so two imports
of one path read the filesystem exactly as often as the first one did. -/
theorem importSrc_memoized_idempotent (env : Env) (s : St) (r p : String) (t : Bool)
    (tab : SymTab) (nm : String)
    (htab : s.srcPkg.lookup p = some tab) (hname : s.pkgNames.lookup p = some nm) :
    importSrc env s r p t = (s, [], Except.ok nm) ∧
    ∀ env' s' r' p' t' s2 evs nm2,
      importSrc env' s' r' p' t' = (s2, evs, Except.ok nm2) →
      importSrc env' s2 r' p' t' = (s2, [], Except.ok nm2) := by
  constructor
  · unfold importSrc
    rw [htab, hname]
  · intro env' s' r' p' t' s2 evs nm2 h
    obtain ⟨tab2, hl1, hl2⟩ := importSrc_ok_lookup h
    unfold importSrc
    rw [hl1, hl2]

/-- Witness for C1 at the registered state `stReg`. -/
theorem importSrc_memoized_idempotent_witness :
    stReg.srcPkg.lookup "p" = some [] ∧ stReg.pkgNames.lookup "p" = some "foo" ∧
    (importSrc env0 stReg "main" "p" true = (stReg, [], Except.ok "foo") ∧
     ∀ env' s' r' p' t' s2 evs nm2,
       importSrc env' s' r' p' t' = (s2, evs, Except.ok nm2) →
       importSrc env' s2 r' p' t' = (s2, [], Except.ok nm2)) :=
  ⟨rfl, rfl, importSrc_memoized_idempotent env0 stReg "main" "p" true [] "foo" rfl rfl⟩

/-- A failing directory resolution only propagates a collaborator error. -/
theorem resolveDir_error_external {env : Env} {r p : String} {ev0 : List Ev} {e : Err}
    (h : resolveDir env r p = (ev0, Except.error e)) : ∃ m, e = Err.external m := by
  unfold resolveDir at h
  split at h
  · split at h <;> simp at h
  · cases hg : env.getPackageDir p with
    | error m =>
      rw [hg] at h
      simp at h
      exact ⟨m, h.2.symm⟩
    | ok d =>
      rw [hg] at h
      simp at h

/-- A failing GTA retry pass only propagates a collaborator error. -/
theorem gtaRetryAll_error_external {env : Env} {ip pk : String} :
    ∀ (rv : List (String × List Node)) (e : Err),
      gtaRetryAll env ip pk rv = Except.error e → ∃ m, e = Err.external m := by
  intro rv
  induction rv with
  | nil => intro e h; simp [gtaRetryAll] at h
  | cons kv rest ih =>
    intro e h
    obtain ⟨k, nodes⟩ := kv
    simp only [gtaRetryAll] at h
    cases hg : env.gtaRetryFn nodes ip pk with
    | error m =>
      simp only [hg] at h
      simp at h
      exact ⟨m, h.symm⟩
    | ok u => simp only [hg] at h; exact ih e h

/-- Failing CFG building only propagates a collaborator error. -/
theorem cfgAll_error_external {env : Env} {ip pk : String} :
    ∀ (roots : List Node) (e : Err),
      cfgAll env ip pk roots = Except.error e → ∃ m, e = Err.external m := by
  intro roots
  induction roots with
  | nil => intro e h; simp [cfgAll] at h
  | cons root rest ih =>
    intro e h
    simp only [cfgAll] at h
    cases hc : env.cfgFn root ip pk with
    | error m =>
      simp only [hc] at h
      simp at h
      exact ⟨m, h.symm⟩
    | ok nodes =>
      simp only [hc] at h
      cases hr : cfgAll env ip pk rest with
      | error e2 =>
        simp only [hr] at h
        simp at h
        exact h ▸ ih e2 hr
      | ok more => simp [hr] at h

/-- Failing per-file wrapper execution only propagates a collaborator
error. -/
theorem runRootNodes_error_external {env : Env} :
    ∀ (ns : List Node) (evs : List Ev) (e : Err),
      runRootNodes env ns = (evs, Except.error e) → ∃ m, e = Err.external m := by
  intro ns
  induction ns with
  | nil => intro evs e h; simp [runRootNodes] at h
  | cons n rest ih =>
    intro evs e h
    simp only [runRootNodes] at h
    cases hg : env.genRunFn n with
    | error m =>
      simp only [hg] at h
      simp at h
      exact ⟨m, h.2.symm⟩
    | ok u =>
      simp only [hg] at h
      cases hr : runRootNodes env rest with
      | mk evs' r =>
        simp only [hr] at h
        cases r with
        | error e2 =>
          simp at h
          obtain ⟨m, hm⟩ := ih evs' e2 hr
          exact ⟨m, h.2 ▸ hm⟩
        | ok u2 => simp at h

/-- A failing execution phase only propagates a collaborator error. -/
theorem execPhase_error_external {env : Env} {gs : SymTab} {pk : String} {t : Bool}
    {rn ins : List Node} {evs : List Ev} {e : Err}
    (h : execPhase env gs pk t rn ins = (evs, Except.error e)) : ∃ m, e = Err.external m := by
  unfold execPhase at h
  cases hr : runRootNodes env rn with
  | mk evs1 r =>
    simp only [hr] at h
    cases r with
    | error e1 =>
      simp at h
      exact h.2 ▸ runRootNodes_error_external rn evs1 e1 hr
    | ok u =>
      cases hg : env.genGlobalVarsFn rn gs with
      | error m =>
        simp only [hg] at h
        simp at h
        exact ⟨m, h.2.symm⟩
      | ok gv => simp [hg] at h

/-- In test-scanning mode (`skipTest = false`) the file loop never raises
the package-name-conflict error: the only site building it (src.go lines
95-96) is guarded by `skipTest`. -/
theorem parseLoop_no_conflict {env : Env} {dir rP ip : String} :
    ∀ (files : List String) (pk : String) (rn : List Node)
      (rv : List (String × List Node)) (evs : List Ev) (n1 n2 d : String),
      parseLoop env dir rP ip false files pk rn rv
        = (evs, Except.error (Err.pkgConflict n1 n2 d)) → False := by
  intro files
  induction files with
  | nil => intro pk rn rv evs n1 n2 d h; simp [parseLoop] at h
  | cons file rest ih =>
    intro pk rn rv evs n1 n2 d h
    simp only [parseLoop] at h
    cases hskip : env.skipFileFn file false with
    | true =>
      simp only [hskip] at h
      exact ih pk rn rv evs n1 n2 d h
    | false =>
      simp only [hskip] at h
      cases hrf : env.readFileOracle (goJoin [dir, file]) with
      | error m => simp [hrf] at h
      | ok buf =>
        simp only [hrf] at h
        cases hpar : env.parseFn buf (goJoin [dir, file]) with
        | error m => simp [hpar] at h
        | ok stxOpt =>
          simp only [hpar] at h
          cases stxOpt with
          | none =>
            cases hrec : parseLoop env dir rP ip false rest pk rn rv with
            | mk evs' res' =>
              simp only [hrec, withEv] at h
              simp at h
              exact ih pk rn rv evs' n1 n2 d (by rw [hrec, h.2])
          | some stx =>
            cases hast : env.astFn stx with
            | error m => simp [hast] at h
            | ok pr =>
              obtain ⟨pname, rootOpt⟩ := pr
              simp only [hast] at h
              cases rootOpt with
              | none =>
                cases hrec : parseLoop env dir rP ip false rest pk rn rv with
                | mk evs' res' =>
                  simp only [hrec, withEv] at h
                  simp at h
                  exact ih pk rn rv evs' n1 n2 d (by rw [hrec, h.2])
              | some root =>
                simp only [Bool.false_eq_true, and_false, ite_false] at h
                cases hgta : env.gtaFn root (effectivePkg rP ip) ip
                    (if pk = "" then pname else pk) with
                | error m => simp [hgta] at h
                | ok list =>
                  simp only [hgta] at h
                  cases hrec : parseLoop env dir rP ip false rest
                      (if pk = "" then pname else pk) (rn ++ [root])
                      (addRevisit rv (effectivePkg rP ip) list) with
                  | mk evs' res' =>
                    simp only [hrec, withEv] at h
                    simp at h
                    exact ih (if pk = "" then pname else pk) (rn ++ [root])
                      (addRevisit rv (effectivePkg rP ip) list) evs' n1 n2 d
                      (by rw [hrec, h.2])

/-- In test-scanning mode the whole load pipeline never raises the
package-name-conflict error. -/
theorem loadPkg_no_conflict {env : Env} {dir rP ip : String} :
    ∀ (evs : List Ev) (n1 n2 d : String),
      loadPkg env dir rP ip false = (evs, Except.error (Err.pkgConflict n1 n2 d)) → False := by
  intro evs n1 n2 d h
  unfold loadPkg at h
  cases hrd : env.readDirOracle dir with
  | error m => simp [hrd] at h
  | ok files =>
    simp only [hrd] at h
    cases hpl : parseLoop env dir rP ip false files "" [] [] with
    | mk evs1 res1 =>
      simp only [hpl] at h
      cases res1 with
      | error e1 =>
        simp at h
        exact parseLoop_no_conflict files "" [] [] evs1 n1 n2 d (by rw [hpl, h.2])
      | ok tri =>
        obtain ⟨pk, rn, rv⟩ := tri
        cases hgr : gtaRetryAll env ip pk rv with
        | error e2 =>
          simp only [hgr] at h
          simp at h
          obtain ⟨m, hm⟩ := gtaRetryAll_error_external rv e2 hgr
          rw [h.2] at hm
          simp at hm
        | ok u =>
          simp only [hgr] at h
          cases hc : cfgAll env ip pk rn with
          | error e3 =>
            simp only [hc] at h
            simp at h
            obtain ⟨m, hm⟩ := cfgAll_error_external rn e3 hc
            rw [h.2] at hm
            simp at hm
          | ok ins => simp [hc] at h

/-- C6: during file parsing the first file's declared package name (the
accumulated `pkgName`) is authoritative: a later file declaring a
different name while test files are being skipped fails with the
package-name-conflict error naming both package names and the directory
(src.go lines 93-97); and in test-scanning mode (`skipTest = false`) no
call of `importSrc` ever returns that error. -/
theorem importSrc_pkg_name_conflict
    (env : Env) (dir rP ip file : String) (rest : List String)
    (pkgName pname buf : String) (stx : Syntree) (root : Node)
    (rn : List Node) (rv : List (String × List Node))
    (hskip : env.skipFileFn file true = false)
    (hread : env.readFileOracle (goJoin [dir, file]) = Except.ok buf)
    (hparse : env.parseFn buf (goJoin [dir, file]) = Except.ok (some stx))
    (hast : env.astFn stx = Except.ok (pname, some root))
    (hne : pkgName ≠ "") (hne2 : pkgName ≠ pname) :
    parseLoop env dir rP ip true (file :: rest) pkgName rn rv
      = ([Ev.readFile (goJoin [dir, file])],
         Except.error (Err.pkgConflict pkgName pname dir)) ∧
    ∀ (env' : Env) (s : St) (r p n1 n2 d : String),
      (importSrc env' s r p false).2.2 ≠ Except.error (Err.pkgConflict n1 n2 d) := by
  constructor
  · simp only [parseLoop, hskip, hread, hparse, hast]
    rw [if_neg (by simp), if_pos ⟨hne, hne2, trivial⟩]
  · intro env' s r p n1 n2 d hcontra
    unfold importSrc at hcontra
    cases h1 : s.srcPkg.lookup p with
    | some tab =>
      cases h2 : s.pkgNames.lookup p with
      | none => simp [h1, h2] at hcontra
      | some name => simp [h1, h2] at hcontra
    | none =>
      cases h2 : resolveDir env' r p with
      | mk ev0 res =>
        cases res with
        | error e =>
          simp only [h1, h2] at hcontra
          simp at hcontra
          obtain ⟨m, hm⟩ := resolveDir_error_external h2
          rw [hm] at hcontra
          simp at hcontra
        | ok pr =>
          obtain ⟨rP', dir'⟩ := pr
          cases h3 : s.rdir.contains p with
          | true => simp only [h1, h2, h3] at hcontra; simp at hcontra
          | false =>
            cases h4 : loadPkg env' dir' rP' p false with
            | mk evs1 res1 =>
              cases res1 with
              | error e =>
                simp only [h1, h2, h3, h4] at hcontra
                simp at hcontra
                exact loadPkg_no_conflict evs1 n1 n2 d (by rw [h4, hcontra])
              | ok tri =>
                obtain ⟨pk, rn', ins⟩ := tri
                cases h5 : execPhase env' (env'.scopes p) pk false rn' ins with
                | mk evs2 res2 =>
                  cases res2 with
                  | error e =>
                    simp only [h1, h2, h3, h4, h5] at hcontra
                    simp at hcontra
                    obtain ⟨m, hm⟩ := execPhase_error_external h5
                    rw [hm] at hcontra
                    simp at hcontra
                  | ok u =>
                    simp only [h1, h2, h3, h4, h5] at hcontra
                    simp at hcontra

/-- Witness for C6: the conflict step at a concrete file, applying the
theorem (its second conjunct makes the test-scan half concrete too). -/
theorem importSrc_pkg_name_conflict_witness :
    envConflict.skipFileFn "f.go" true = false ∧
    (parseLoop envConflict "d" "." "p" true ["f.go"] "main" [] []
       = ([Ev.readFile "d/f.go"], Except.error (Err.pkgConflict "main" "other" "d")) ∧
     ∀ (env' : Env) (s : St) (r p n1 n2 d : String),
       (importSrc env' s r p false).2.2 ≠ Except.error (Err.pkgConflict n1 n2 d)) :=
  ⟨rfl, importSrc_pkg_name_conflict envConflict "d" "." "p" "f.go" [] "main" "other"
    "source text" 3 4 [] [] rfl rfl rfl rfl (by decide) (by decide)⟩

/-- The events of directory resolution: nothing for a relative path, one
`packages.Load` lookup for an absolute one. -/
theorem resolveDir_events (env : Env) (r p : String) :
    (resolveDir env r p).1 = [] ∨ (resolveDir env r p).1 = [Ev.pkgDir p] := by
  unfold resolveDir
  split
  · split <;> simp
  · cases hg : env.getPackageDir p <;> simp

/-- Successful per-file wrapper execution runs exactly the AST roots, in
parse order, against a nil frame. -/
theorem runRootNodes_ok_events {env : Env} :
    ∀ (ns : List Node) (evs : List Ev),
      runRootNodes env ns = (evs, Except.ok ()) →
      evs = ns.map (fun n => Ev.run n false) := by
  intro ns
  induction ns with
  | nil =>
    intro evs h
    simp only [runRootNodes] at h
    simp at h
    simp [h]
  | cons n rest ih =>
    intro evs h
    simp only [runRootNodes] at h
    cases hg : env.genRunFn n with
    | error m => simp only [hg] at h; simp at h
    | ok u =>
      simp only [hg] at h
      cases hr : runRootNodes env rest with
      | mk evs' rr =>
        simp only [hr] at h
        cases rr with
        | error e2 => simp at h
        | ok u2 =>
          cases u2
          simp only [Prod.mk.injEq] at h
          rw [← h.1, ih evs' hr]
          simp

/-- Every event of the file loop is a file read. -/
theorem parseLoop_events {env : Env} {dir rP ip : String} {t : Bool} :
    ∀ (files : List String) (pk : String) (rn : List Node)
      (rv : List (String × List Node)) (evs : List Ev) res,
      parseLoop env dir rP ip t files pk rn rv = (evs, res) →
      ∀ e ∈ evs, ∃ f, e = Ev.readFile f := by
  intro files
  induction files with
  | nil =>
    intro pk rn rv evs res h
    simp only [parseLoop, Prod.mk.injEq] at h
    obtain ⟨h1, -⟩ := h
    subst h1
    simp
  | cons file rest ih =>
    intro pk rn rv evs res h
    simp only [parseLoop] at h
    cases hskip : env.skipFileFn file t with
    | true =>
      simp only [hskip, if_pos] at h
      exact ih pk rn rv evs res h
    | false =>
      simp only [hskip, Bool.false_eq_true, ite_false] at h
      cases hrf : env.readFileOracle (goJoin [dir, file]) with
      | error m =>
        simp only [hrf, Prod.mk.injEq] at h
        obtain ⟨h1, -⟩ := h
        subst h1
        intro e he
        simp at he
        exact ⟨goJoin [dir, file], he⟩
      | ok buf =>
        cases hpar : env.parseFn buf (goJoin [dir, file]) with
        | error m =>
          simp only [hrf, hpar, Prod.mk.injEq] at h
          obtain ⟨h1, -⟩ := h
          subst h1
          intro e he
          simp at he
          exact ⟨goJoin [dir, file], he⟩
        | ok stxOpt =>
          cases stxOpt with
          | none =>
            cases hrec : parseLoop env dir rP ip t rest pk rn rv with
            | mk evs' res' =>
              simp only [hrf, hpar, hrec, withEv, Prod.mk.injEq] at h
              obtain ⟨h1, -⟩ := h
              subst h1
              intro e he
              rcases List.mem_cons.mp he with he | he
              · exact ⟨goJoin [dir, file], he⟩
              · exact ih pk rn rv evs' res' hrec e he
          | some stx =>
            cases hast : env.astFn stx with
            | error m =>
              simp only [hrf, hpar, hast, Prod.mk.injEq] at h
              obtain ⟨h1, -⟩ := h
              subst h1
              intro e he
              simp at he
              exact ⟨goJoin [dir, file], he⟩
            | ok pr =>
              obtain ⟨pname, rootOpt⟩ := pr
              cases rootOpt with
              | none =>
                cases hrec : parseLoop env dir rP ip t rest pk rn rv with
                | mk evs' res' =>
                  simp only [hrf, hpar, hast, hrec, withEv, Prod.mk.injEq] at h
                  obtain ⟨h1, -⟩ := h
                  subst h1
                  intro e he
                  rcases List.mem_cons.mp he with he | he
                  · exact ⟨goJoin [dir, file], he⟩
                  · exact ih pk rn rv evs' res' hrec e he
              | some root =>
                simp only [hrf, hpar, hast] at h
                split at h
                · simp only [Prod.mk.injEq] at h
                  obtain ⟨h1, -⟩ := h
                  subst h1
                  intro e he
                  simp at he
                  exact ⟨goJoin [dir, file], he⟩
                · cases hgta : env.gtaFn root (effectivePkg rP ip) ip
                      (if pk = "" then pname else pk) with
                  | error m =>
                    simp only [hgta, Prod.mk.injEq] at h
                    obtain ⟨h1, -⟩ := h
                    subst h1
                    intro e he
                    simp at he
                    exact ⟨goJoin [dir, file], he⟩
                  | ok list =>
                    cases hrec : parseLoop env dir rP ip t rest
                        (if pk = "" then pname else pk) (rn ++ [root])
                        (addRevisit rv (effectivePkg rP ip) list) with
                    | mk evs' res' =>
                      simp only [hgta, hrec, withEv, Prod.mk.injEq] at h
                      obtain ⟨h1, -⟩ := h
                      subst h1
                      intro e he
                      rcases List.mem_cons.mp he with he | he
                      · exact ⟨goJoin [dir, file], he⟩
                      · exact ih (if pk = "" then pname else pk) (rn ++ [root])
                          (addRevisit rv (effectivePkg rP ip) list) evs' res' hrec e he

/-- Inversion of a successful load pipeline. -/
theorem loadPkg_ok_inv {env : Env} {dir rP ip : String} {t : Bool}
    {evs : List Ev} {pk : String} {rn ins : List Node}
    (h : loadPkg env dir rP ip t = (evs, Except.ok (pk, rn, ins))) :
    ∃ files pEvs rv,
      env.readDirOracle dir = Except.ok files ∧
      parseLoop env dir rP ip t files "" [] [] = (pEvs, Except.ok (pk, rn, rv)) ∧
      gtaRetryAll env ip pk rv = Except.ok () ∧
      cfgAll env ip pk rn = Except.ok ins ∧
      evs = Ev.readDir dir :: pEvs := by
  unfold loadPkg at h
  cases hrd : env.readDirOracle dir with
  | error m => simp only [hrd] at h; simp at h
  | ok files =>
    simp only [hrd] at h
    cases hpl : parseLoop env dir rP ip t files "" [] [] with
    | mk pEvs res =>
      simp only [hpl] at h
      cases res with
      | error e => simp at h
      | ok tri =>
        obtain ⟨pk', rn', rv⟩ := tri
        cases hgr : gtaRetryAll env ip pk' rv with
        | error e2 => simp only [hgr] at h; simp at h
        | ok u =>
          cases u
          simp only [hgr] at h
          cases hcf : cfgAll env ip pk' rn' with
          | error e3 => simp only [hcf] at h; simp at h
          | ok ins' =>
            simp only [hcf] at h
            simp at h
            obtain ⟨h1, h2, h3, h4⟩ := h
            subst h2 h3 h4
            exact ⟨files, pEvs, rv, rfl, hpl, hgr, hcf, h1.symm⟩

/-- Inversion of a successful execution phase. -/
theorem execPhase_ok_inv {env : Env} {gs : SymTab} {pk : String} {t : Bool}
    {rn ins : List Node} {evs : List Ev}
    (h : execPhase env gs pk t rn ins = (evs, Except.ok ())) :
    ∃ gv, env.genGlobalVarsFn rn gs = Except.ok gv ∧
      evs = rn.map (fun n => Ev.run n false) ++ Ev.run gv false ::
        (ins ++ mainNodes gs pk t).map (fun n => Ev.run n true) := by
  unfold execPhase at h
  cases hr : runRootNodes env rn with
  | mk evs1 rr =>
    simp only [hr] at h
    cases rr with
    | error e => simp at h
    | ok u =>
      cases u
      cases hg : env.genGlobalVarsFn rn gs with
      | error m => simp only [hg] at h; simp at h
      | ok gv =>
        simp only [hg] at h
        simp only [Prod.mk.injEq] at h
        refine ⟨gv, rfl, ?_⟩
        rw [← h.1, runRootNodes_ok_events rn evs1 hr]

/-- Inversion of a successful non-cached `importSrc` call: every pipeline
phase succeeded, the final state registers the package scope and display
name and marks the path, and the event trace is directory lookup events,
the directory read, the file reads, the frame resize, the per-file wrapper
runs, the global-variable node run, and the init-node runs (with the
main-equivalent nodes appended). -/
theorem importSrc_ok_shape {env : Env} {s : St} {r p : String} {t : Bool}
    {s' : St} {evs : List Ev} {nm : String}
    (h0 : s.srcPkg.lookup p = none)
    (h : importSrc env s r p t = (s', evs, Except.ok nm)) :
    ∃ ev0 rP dir files pEvs rootNodes revisit initNodes gv,
      resolveDir env r p = (ev0, Except.ok (rP, dir)) ∧
      env.readDirOracle dir = Except.ok files ∧
      parseLoop env dir rP p t files "" [] [] = (pEvs, Except.ok (nm, rootNodes, revisit)) ∧
      gtaRetryAll env p nm revisit = Except.ok () ∧
      cfgAll env p nm rootNodes = Except.ok initNodes ∧
      env.genGlobalVarsFn rootNodes (env.scopes p) = Except.ok gv ∧
      s' = ⟨(p, env.scopes p) :: s.srcPkg, (p, nm) :: s.pkgNames, p :: s.rdir⟩ ∧
      evs = ev0 ++ Ev.readDir dir :: pEvs ++ Ev.resize ::
        (rootNodes.map (fun n => Ev.run n false) ++ Ev.run gv false ::
         (initNodes ++ mainNodes (env.scopes p) nm t).map (fun n => Ev.run n true)) := by
  unfold importSrc at h
  cases h2 : resolveDir env r p with
  | mk ev0 res =>
    cases res with
    | error e => simp only [h0, h2] at h; simp at h
    | ok pr =>
      obtain ⟨rP, dir⟩ := pr
      cases h3 : s.rdir.contains p with
      | true => simp only [h0, h2, h3] at h; simp at h
      | false =>
        cases h4 : loadPkg env dir rP p t with
        | mk evs1 res1 =>
          cases res1 with
          | error e => simp only [h0, h2, h3, h4] at h; simp at h
          | ok tri =>
            obtain ⟨pk, rn, ins⟩ := tri
            cases h5 : execPhase env (env.scopes p) pk t rn ins with
            | mk evs2 res2 =>
              cases res2 with
              | error e => simp only [h0, h2, h3, h4, h5] at h; simp at h
              | ok u =>
                cases u
                simp only [h0, h2, h3, h4, h5] at h
                simp at h
                obtain ⟨hs, hevs, hn⟩ := h
                subst hn
                obtain ⟨files, pEvs, rv, hrd, hpl, hgr, hcf, hevs1⟩ := loadPkg_ok_inv h4
                obtain ⟨gv, hgv, hevs2⟩ := execPhase_ok_inv h5
                refine ⟨ev0, rP, dir, files, pEvs, rn, rv, ins, gv,
                  rfl, hrd, hpl, hgr, hcf, hgv, hs.symm, ?_⟩
                rw [← hevs, hevs1, hevs2]
                simp

/-- C7: on every successful non-cached import, the synthesized
global-variable node (the `genGlobalVars` result, src.go lines 146-150)
runs strictly after every parsing/analysis event and every per-file
wrapper run, and strictly before every init-equivalent or main-equivalent
run: the trace decomposes as non-run events, then the wrapper runs in file
order, then the global-variable run, then the frame runs. -/
theorem importSrc_globalvars_order (env : Env) (s : St) (r p : String) (t : Bool)
    (s' : St) (evs : List Ev) (nm : String)
    (h0 : s.srcPkg.lookup p = none)
    (h : importSrc env s r p t = (s', evs, Except.ok nm)) :
    ∃ (pre : List Ev) (rootNodes : List Node) (gv : Node) (inits : List Node),
      evs = pre ++ rootNodes.map (fun n => Ev.run n false)
            ++ Ev.run gv false :: inits.map (fun n => Ev.run n true) ∧
      env.genGlobalVarsFn rootNodes (env.scopes p) = Except.ok gv ∧
      ∀ n b, Ev.run n b ∉ pre := by
  obtain ⟨ev0, rP, dir, files, pEvs, rootNodes, revisit, initNodes, gv,
    hdir, hrd, hpl, hgr, hcf, hgv, hs, hevs⟩ := importSrc_ok_shape h0 h
  refine ⟨ev0 ++ Ev.readDir dir :: pEvs ++ [Ev.resize], rootNodes, gv,
    initNodes ++ mainNodes (env.scopes p) nm t, ?_, hgv, ?_⟩
  · rw [hevs]
    simp
  · intro n b hmem
    have hev0 : ev0 = [] ∨ ev0 = [Ev.pkgDir p] := by
      rcases resolveDir_events env r p with hres | hres <;> rw [hdir] at hres
      · exact Or.inl hres
      · exact Or.inr hres
    rcases List.mem_append.mp hmem with hm | hm
    · rcases List.mem_append.mp hm with hm | hm
      · rcases hev0 with he | he <;> subst he
        · simp at hm
        · simp at hm
      · rcases List.mem_cons.mp hm with hm | hm
        · simp at hm
        · obtain ⟨f, hf⟩ := parseLoop_events files "" [] [] pEvs _ hpl (Ev.run n b) hm
          simp at hf
    · simp at hm

/-- Witness for C7 at the concrete successful import of `"./x"` under
`envOK`. -/
theorem importSrc_globalvars_order_witness :
    st0.srcPkg.lookup "./x" = none ∧
    importSrc envOK st0 "main" "./x" true = (stOK, evsOK, Except.ok "main") ∧
    (∃ (pre : List Ev) (rootNodes : List Node) (gv : Node) (inits : List Node),
      evsOK = pre ++ rootNodes.map (fun n => Ev.run n false)
            ++ Ev.run gv false :: inits.map (fun n => Ev.run n true) ∧
      envOK.genGlobalVarsFn rootNodes (envOK.scopes "./x") = Except.ok gv ∧
      ∀ n b, Ev.run n b ∉ pre) :=
  ⟨rfl, rfl, importSrc_globalvars_order envOK st0 "main" "./x" true stOK evsOK "main" rfl rfl⟩

/-- C8: on every successful non-cached import, the frame-executed node
list is the CFG-accumulated init nodes (per file, in file-encounter order,
src.go lines 117-123) followed by the main-equivalent nodes, which therefore
run last; `mainNodes` is nonempty exactly when the symbol `main` exists in
the package scope, the package name is `mainID` and `skipTest` is set
(src.go lines 152-155) — in particular, a test scan (`skipTest = false`)
or a package not named `main` never schedules it. -/
theorem importSrc_main_scheduling (env : Env) (s : St) (r p : String) (t : Bool)
    (s' : St) (evs : List Ev) (nm : String)
    (h0 : s.srcPkg.lookup p = none)
    (h : importSrc env s r p t = (s', evs, Except.ok nm)) :
    (∃ (pre : List Ev) (rootNodes initNodes : List Node),
       cfgAll env p nm rootNodes = Except.ok initNodes ∧
       evs = pre ++ (initNodes ++ mainNodes (env.scopes p) nm t).map (fun n => Ev.run n true)) ∧
    (∀ gs pk, mainNodes gs pk false = []) ∧
    (∀ gs pk b, pk ≠ mainID → mainNodes gs pk b = []) := by
  refine ⟨?_, ?_, ?_⟩
  · obtain ⟨ev0, rP, dir, files, pEvs, rootNodes, revisit, initNodes, gv,
      hdir, hrd, hpl, hgr, hcf, hgv, hs, hevs⟩ := importSrc_ok_shape h0 h
    refine ⟨ev0 ++ Ev.readDir dir :: pEvs ++ Ev.resize ::
      (rootNodes.map (fun n => Ev.run n false) ++ [Ev.run gv false]),
      rootNodes, initNodes, hcf, ?_⟩
    rw [hevs]
    simp
  · intro gs pk
    unfold mainNodes
    cases gs.lookup mainID with
    | some m => simp
    | none => rfl
  · intro gs pk b hne
    unfold mainNodes
    cases gs.lookup mainID with
    | some m => simp [hne]
    | none => rfl

/-- Witness for C8 at the concrete successful import of `"./x"` under
`envOK` (package `main`, `skipTest` set, `main` symbol present: node 5
runs last). -/
theorem importSrc_main_scheduling_witness :
    st0.srcPkg.lookup "./x" = none ∧
    importSrc envOK st0 "main" "./x" true = (stOK, evsOK, Except.ok "main") ∧
    ((∃ (pre : List Ev) (rootNodes initNodes : List Node),
       cfgAll envOK "./x" "main" rootNodes = Except.ok initNodes ∧
       evsOK = pre ++
         (initNodes ++ mainNodes (envOK.scopes "./x") "main" true).map (fun n => Ev.run n true)) ∧
     (∀ gs pk, mainNodes gs pk false = []) ∧
     (∀ gs pk b, pk ≠ mainID → mainNodes gs pk b = [])) :=
  ⟨rfl, rfl, importSrc_main_scheduling envOK st0 "main" "./x" true stOK evsOK "main" rfl rfl⟩

/-- `strings.Split` never returns an empty slice. -/
theorem splitSepAux_ne_nil : ∀ (l cur : List Char), splitSepAux l cur ≠ [] := by
  intro l
  induction l with
  | nil => intro cur h; simp [splitSepAux] at h
  | cons c rest ih =>
    intro cur h
    simp only [splitSepAux] at h
    split at h
    · simp at h
    · exact ih (c :: cur) h

/-- Once the scan of `effectivePkg` has matched a segment, `prevRootIndex`
and `rootIndex` differ forever and no further segment is ever appended:
the result list is frozen. -/
theorem effectiveLoop_frozen (sr sp : List (List Char)) :
    ∀ (fuel i rI pI : Nat) (res : List (List Char)), pI ≠ rI →
      effectiveLoop sr sp fuel i rI pI res = res := by
  intro fuel
  induction fuel with
  | zero => intro i rI pI res hne; rfl
  | succ n ih =>
    intro i rI pI res hne
    simp only [effectiveLoop]
    by_cases h1 : 0 < sr.length - 1 - rI ∧
        sp.getD (sp.length - 1 - i) [] = sr.getD (sr.length - 1 - rI) [] ∧ i ≠ 0
    · rw [if_pos h1]
      exact ih (i + 1) (rI + 1) rI res (by omega)
    · rw [if_neg h1, if_neg hne]
      exact ih (i + 1) rI pI res hne

/-- Before any match (`rootIndex = prevRootIndex = 0`), the scan keeps the
remaining segments of the reversed path up to the first occurrence of the
root's last segment — or all of them when the root has fewer than two
segments (the `index > 0` guard never lets the root's first segment
match). -/
theorem effectiveLoop_phase1 (sr sp : List (List Char)) :
    ∀ (fuel a : Nat) (res : List (List Char)),
      1 ≤ a → a + fuel = sp.length →
      effectiveLoop sr sp fuel a 0 0 res =
        res ++ (if 2 ≤ sr.length
                then keptFromEnd (sr.getD (sr.length - 1) []) (sp.reverse.drop a)
                else sp.reverse.drop a) := by
  intro fuel
  induction fuel with
  | zero =>
    intro a res ha hlen
    have hdrop : sp.reverse.drop a = [] := by
      apply List.drop_eq_nil_of_le
      simp
      omega
    rw [hdrop]
    simp [effectiveLoop, keptFromEnd]
  | succ n ih =>
    intro a res ha hlen
    have ha' : a < sp.length := by omega
    have harev : a < sp.reverse.length := by simpa using ha'
    have hpart : sp.reverse[a]? = sp[sp.length - 1 - a]? := List.getElem?_reverse ha' 
    have hgetD : sp.getD (sp.length - 1 - a) [] = sp.reverse[a] := by
      rw [List.getD_eq_getElem?_getD, ← hpart, List.getElem?_eq_getElem harev]
      rfl
    have hdrop : sp.reverse.drop a = sp.reverse[a] :: sp.reverse.drop (a + 1) :=
      List.drop_eq_getElem_cons harev
    simp only [effectiveLoop]
    by_cases hc : 0 < sr.length - 1 - 0 ∧
        sp.getD (sp.length - 1 - a) [] = sr.getD (sr.length - 1 - 0) [] ∧ a ≠ 0
    · rw [if_pos hc]
      rw [effectiveLoop_frozen sr sp n (a + 1) 1 0 res (by omega)]
      have hsr2 : 2 ≤ sr.length := by omega
      rw [if_pos hsr2, hdrop]
      have hhead : sp.reverse[a] = sr.getD (sr.length - 1) [] := by
        rw [← hgetD]
        simpa using hc.2.1
      simp only [keptFromEnd, hhead, if_pos rfl]
      simp
    · rw [if_neg hc]
      simp only [ite_true]
      rw [ih (a + 1) (res ++ [sp.getD (sp.length - 1 - a) []]) (by omega) (by omega)]
      by_cases hsr2 : 2 ≤ sr.length
      · rw [if_pos hsr2, if_pos hsr2, hdrop]
        have hne : sp.reverse[a] ≠ sr.getD (sr.length - 1) [] := by
          intro he
          apply hc
          refine ⟨by omega, ?_, by omega⟩
          rw [hgetD]
          simpa using he
        simp only [keptFromEnd, if_neg hne]
        rw [hgetD]
        simp
      · rw [if_neg hsr2, if_neg hsr2, hdrop, hgetD]
        simp

/-- C9 (amended): `effectivePkg` is a total, deterministic function of
root and import path, equal to root joined with the trailing run of
import-path segments kept by the scan: the final segment always, then —
only when the root has at least two segments — the segments up to the
first occurrence of the root's last segment (everything further left is
collapsed or dropped). It is not in general root joined with the import
path expressed relative to the caller's root. -/
theorem effectivePkg_characterization (root path : String) :
    effectivePkg root path =
      ⟨goJoinChars [root.data,
        ((keptScan (splitSep root.data) (splitSep path.data)).reverse).foldl
          (fun frag part => goJoinChars [frag, part]) []]⟩ := by
  have key : effectiveLoop (splitSep root.data) (splitSep path.data)
      (splitSep path.data).length 0 0 0 []
      = keptScan (splitSep root.data) (splitSep path.data) := by
    cases hrev : (splitSep path.data).reverse with
    | nil =>
      exfalso
      apply splitSepAux_ne_nil path.data []
      have hnil : splitSep path.data = [] := by
        rw [← List.reverse_reverse (splitSep path.data), hrev]
        rfl
      exact hnil
    | cons r0 rrest =>
      have hlen : (splitSep path.data).length = rrest.length + 1 := by
        rw [← List.length_reverse, hrev]
        simp
      have hsp' : splitSep path.data = rrest.reverse ++ [r0] := by
        have := congrArg List.reverse hrev
        simpa using this
      have hpart : (splitSep path.data).getD
          ((splitSep path.data).length - 1 - 0) [] = r0 := by
        rw [hlen, hsp']
        rw [List.getD_eq_getElem?_getD]
        rw [show rrest.length + 1 - 1 - 0 = rrest.reverse.length + 0 by simp]
        rw [List.getElem?_append_right (by simp)]
        simp
      have hdrop1 : (splitSep path.data).reverse.drop 1 = rrest := by
        rw [hrev]
        rfl
      rw [hlen]
      simp only [effectiveLoop]
      rw [if_neg (by simp)]
      simp only [ite_true]
      rw [hpart]
      simp only [zero_add, List.nil_append]
      rw [effectiveLoop_phase1 (splitSep root.data) (splitSep path.data)
        rrest.length 1 [r0] (by omega) (by omega)]
      rw [hdrop1]
      simp only [keptScan, hrev]
      simp
  simp only [effectivePkg, effectivePkgChars]
  rw [key]

end YaegiSrc
